import Mathlib

/-!
Verification development for the JoshGPT VS Code extension's tool-calling
orchestration core (`src/chat-runner.js`, `src/local-shell-tool.js`,
`src/mcp-client.js`).  JavaScript values are shallowly embedded as an
inductive `JsValue`; the external effects of the loop (the completion
endpoint, the MCP gateway, the local shell subprocess, and the builtin
`JSON.parse` / `JSON.stringify`) are abstracted as an oracle environment
`Env`, while every piece of control flow and string construction in the
repository's own code is translated directly from the source.
-/

namespace JoshGpt

/-- A JavaScript value, as far as the orchestration code inspects one:
`null`, `undefined`, booleans, (integer) numbers, strings, arrays and
plain objects (ordered field lists). -/
inductive JsValue where
  | null : JsValue
  | undef : JsValue
  | bool : Bool → JsValue
  | num : Int → JsValue
  | str : String → JsValue
  | arr : List JsValue → JsValue
  | obj : List (String × JsValue) → JsValue

/-- JS truthiness (`Boolean(v)`): `null`, `undefined`, `false`, `0` and
`""` are falsy; arrays and objects are always truthy. -/
def JsValue.isTruthy : JsValue → Bool
  | .null => false
  | .undef => false
  | .bool b => b
  | .num n => n != 0
  | .str s => s != ""
  | .arr _ => true
  | .obj _ => true

/-- `typeof v === "object"` — true for `null`, arrays and objects. -/
def JsValue.typeofIsObject : JsValue → Bool
  | .null => true
  | .arr _ => true
  | .obj _ => true
  | _ => false

/-- `typeof v === "string"`. -/
def JsValue.isString : JsValue → Bool
  | .str _ => true
  | _ => false

mutual

/-- JS `String(v)` coercion, to the extent the code relies on it
(tool names and descriptions): primitives print their usual forms,
arrays comma-join their elements (with `null`/`undefined` as empty),
objects print `[object Object]`. -/
def jsToString : JsValue → String
  | .null => "null"
  | .undef => "undefined"
  | .bool b => if b then "true" else "false"
  | .num n => toString n
  | .str s => s
  | .arr l => String.intercalate "," (jsToStringList l)
  | .obj _ => "[object Object]"

/-- Element-wise `String` coercion used by `Array.prototype.toString`. -/
def jsToStringList : List JsValue → List String
  | [] => []
  | v :: rest =>
      (match v with
        | .null => ""
        | .undef => ""
        | w => jsToString w) :: jsToStringList rest

end

/-- The empty object `{}`. -/
def emptyObj : JsValue := .obj []

/-- The whitespace characters recognized by the JS string builtins the
code relies on (`trim`, here restricted to the ASCII whitespace range
actually occurring in protocol traffic). -/
def isJsSpace (c : Char) : Bool :=
  c = ' ' || c = '\t' || c = '\n' || c = '\r' || c = '\x0b' || c = '\x0c'

/-- The JS builtin `String.prototype.trim`. -/
def jsTrim (s : String) : String :=
  ⟨((s.data.dropWhile isJsSpace).reverse.dropWhile isJsSpace).reverse⟩

/-- The JS builtin `String.prototype.startsWith`. -/
def jsStartsWith (s p : String) : Bool := p.data.isPrefixOf s.data

/-- The JS builtin `String.prototype.endsWith`. -/
def jsEndsWith (s p : String) : Bool := p.data.isSuffixOf s.data

/-- The JS builtin `String.prototype.toLowerCase` (ASCII range). -/
def jsToLower (s : String) : String := ⟨s.data.map Char.toLower⟩

/-- Embeds `parseToolArguments` (chat-runner.js lines 44–54).  The builtin
`JSON.parse` is supplied as an oracle `jsonParse`, with `none` standing
for a thrown `SyntaxError` (the source catches it and returns `{}`).
A non-string payload, an empty/whitespace payload, an unparseable payload,
and a payload parsing to a falsy value or a non-object all yield `{}`. -/
def parseToolArguments (jsonParse : String → Option JsValue) (raw : JsValue) :
    JsValue :=
  match raw with
  | .str s =>
      if jsTrim s = "" then emptyObj
      else
        match jsonParse s with
        | none => emptyObj
        | some parsed =>
            if parsed.isTruthy && parsed.typeofIsObject then parsed else emptyObj
  | _ => emptyObj

/-- Embeds `truncateText` (local-shell-tool.js lines 31–42).  The call
sites always pass a string, on which the `String(value || "")` coercion
is the identity, so the embedding takes a `String` directly.  String
length is character count (the JS UTF-16 length agrees on the ASCII
markers involved). -/
def truncateText (value : String) (maxChars : Nat) : String × Bool :=
  let text := value
  if text.length ≤ maxChars then (text, false)
  else
    let suffix := "\n...[truncated]"
    let headBudget := maxChars - suffix.length
    (text.take headBudget ++ suffix, true)

/-- An entry of an MCP `tools/list` listing, before validation: the
fields the adapter reads.  A falsy entry of the listing array is embedded
as `none` at the use site. -/
structure McpTool where
  name : JsValue
  description : JsValue
  inputSchema : JsValue

/-- Adapted tool schema in the completion endpoint's calling convention
(`asOpenAiTools` output shape). -/
structure OpenAiFunctionDecl where
  name : String
  description : String
  parameters : JsValue

/-- One entry of the `tools` array sent to the completion endpoint. -/
structure OpenAiTool where
  type : String
  function : OpenAiFunctionDecl

/-- The two gateway-internal execution-proxy tool names stripped from
remote listings (chat-runner.js lines 14–17). -/
def MCP_EXECUTION_TOOL_NAMES : List String :=
  ["run_host_command", "run_container_command"]

/-- Embeds `asOpenAiTools` (chat-runner.js lines 56–68): drop falsy
entries and entries with a falsy `name` or `inputSchema`, drop entries
whose coerced name is in the exclusion set, and repackage the rest.
`listTools` always hands this an array, so the `Array.isArray` guard is
the identity here. -/
def asOpenAiTools (mcpTools : List (Option McpTool))
    (excludedToolNames : List String) : List OpenAiTool :=
  ((mcpTools.filterMap id).filter
      (fun tool => tool.name.isTruthy && tool.inputSchema.isTruthy)
    |>.filter (fun tool => !(excludedToolNames.contains (jsToString tool.name)))
    |>.map (fun tool =>
      { type := "function"
        function :=
          { name := jsToString tool.name
            description :=
              if tool.description.isTruthy then jsToString tool.description else ""
            parameters := tool.inputSchema } }))

/-- Split on the regex `/\r?\n/` as used by `_parseMcpBody`: every
`"\r\n"` pair and every bare `"\n"` is a separator (a lone `"\r"` is
not). -/
def splitCrlf : List Char → List (List Char)
  | [] => [[]]
  | '\r' :: '\n' :: rest => [] :: splitCrlf rest
  | '\n' :: rest => [] :: splitCrlf rest
  | c :: rest =>
      match splitCrlf rest with
      | [] => [[c]]
      | h :: t => (c :: h) :: t

/-- `trimmed.split(/\r?\n/)` on strings. -/
def splitCrlfLines (s : String) : List String :=
  (splitCrlf s.data).map (fun l => ⟨l⟩)

/-- The trimmed payloads of the `data:` lines of a text-event-stream body
(mcp-client.js lines 29–34). -/
def dataLinesOf (trimmed : String) : List String :=
  (splitCrlfLines trimmed).filterMap
    (fun line =>
      if jsStartsWith line "data:" then some (jsTrim (line.drop 5)) else none)

/-- The reverse scan of `_parseMcpBody` (lines 40–50): try the data lines
from last to first, skipping empty candidates and candidates that fail to
parse; `none` when every candidate is skipped. -/
def lastJsonPayload (jsonParse : String → Option JsValue) :
    List String → Option JsValue
  | [] => none
  | c :: rest =>
      match lastJsonPayload jsonParse rest with
      | some v => some v
      | none => if c = "" then none else jsonParse c

/-- Embeds `McpHttpClient._parseMcpBody` (mcp-client.js lines 18–53).
`jsonParse` is the `JSON.parse` oracle (`none` = throws); an `Except.error`
is a thrown `Error` with the source's message. -/
def parseMcpBody (jsonParse : String → Option JsValue) (rawBody : String) :
    Except String JsValue :=
  let text := jsTrim rawBody
  if text = "" then .error "MCP response body is empty."
  else
    let trimmed := jsTrim text
    if jsStartsWith trimmed "\x7b" then
      match jsonParse trimmed with
      | some v => .ok v
      | none => .error "SyntaxError: unexpected token in JSON"
    else
      let dataLines := dataLinesOf trimmed
      if dataLines.isEmpty then
        .error ("Unexpected MCP response format: " ++ trimmed.take 200)
      else
        match lastJsonPayload jsonParse dataLines with
        | some v => .ok v
        | none => .error "Unable to parse MCP JSON payload from response."

/-- The `function` field of a model-requested tool call, with both
sub-fields possibly absent (`toolCall?.function?.name`,
`toolCall?.function?.arguments`). -/
structure ToolCallFunctionField where
  name : Option String
  arguments : Option String
deriving DecidableEq

/-- An object entry of a response's `tool_calls` array: its `id` and its
optional `function` field. -/
structure ToolCall where
  id : String
  function : Option ToolCallFunctionField
deriving DecidableEq

/-- `toolCall?.function?.name || ""` for an object `toolCall`. -/
def ToolCall.fnName (tc : ToolCall) : String :=
  match tc.function with
  | none => ""
  | some f =>
      match f.name with
      | none => ""
      | some s => s

/-- `toolCall?.function?.arguments || "{}"` for an object `toolCall`
(an empty `arguments` string is falsy and also falls back to `"{}"`). -/
def ToolCall.fnRawArgs (tc : ToolCall) : String :=
  match tc.function with
  | none => "{}"
  | some f =>
      match f.arguments with
      | none => "{}"
      | some s => if s = "" then "{}" else s

/-- An entry of a response's `tool_calls` array, partitioned by the
distinctions the loop's code makes: a nullish entry (`null` or
`undefined`, on which the unguarded `toolCall.id` access throws); any
other primitive entry (for example `0`, `false` or `""`), on which every
property read — `toolCall?.function?.name`, `toolCall?.function?.arguments`
and `toolCall.id` — yields `undefined` without throwing; or an object
entry. -/
inductive ToolCallEntry where
  | nullish : ToolCallEntry
  | prim : JsValue → ToolCallEntry
  | call : ToolCall → ToolCallEntry

/-- Whether an entry is a proper (object) tool call. -/
def ToolCallEntry.isCall : ToolCallEntry → Bool
  | .call _ => true
  | _ => false

/-- A chat message of the working conversation.  `tool_calls` is present
only on assistant messages that carried tool calls; `tool_call_id` and
`name` only on tool-result messages. -/
structure ChatMessage where
  role : String
  content : String
  tool_calls : Option (List ToolCallEntry) := none
  tool_call_id : Option String := none
  name : Option String := none

/-- The value `createChatCompletion` resolves with, as far as the loop
reads it: the derived `text`, the first choice's message `content` when
it is a string (`none` otherwise), and the `tool_calls` array, already
normalized to an array by the completion client (lmstudio-client.js
line 93) — its entries may still be arbitrary JSON values. -/
structure ChatResponse where
  text : String
  messageContent : Option String
  toolCalls : List ToolCallEntry

/-- Embeds `countToolCalls` (chat-runner.js lines 70–73): the length of
the `toolCalls` array, falsy entries included.  The `Array.isArray`
guard is the identity because the completion client always returns an
array. -/
def countToolCalls (response : ChatResponse) : Nat :=
  response.toolCalls.length

/-- One trace event (`addTrace`), minus the wall-clock `timestamp` field,
which is real time and carries no information about control flow. -/
structure TraceEvent where
  type : String
  summary : String
  details : String
deriving DecidableEq

/-- One event of a native streaming response, as accumulated by
`createNativeStreamingChat`: the event name, the parsed-or-raw data and
the extracted delta text (always strings in the value the loop reads). -/
structure StreamEvent where
  event : String
  data : JsValue
  deltaText : String

/-- The value `createNativeStreamingChat` resolves with, as far as
`runNativeStreamingMode` reads it. -/
structure StreamOutcome where
  text : String
  events : List StreamEvent

/-- The turn result produced by `runChatWithOptionalMcp`. -/
structure RunResult where
  text : String
  usedTools : Bool
  rounds : Nat
  trace : List TraceEvent
deriving DecidableEq

/-- The configuration fields the orchestration loop reads.  The endpoint
URLs, credentials and sampling parameters only parameterize the external
calls and are absorbed into the oracle environment.  `mcpMaxToolRounds`
is `some n` for a finite (integer) number and `none` otherwise
(`Number.isFinite` false). -/
structure Config where
  chatEndpointMode : String
  mcpEnabled : Bool
  localShellEnabled : Bool
  mcpMaxToolRounds : Option Int

/-- The oracle environment: every external effect the loop awaits.
An `Except.error` is a rejected promise / thrown error carrying the
error's message.  `mcpCallTool`'s success value stands for the already
stringified tool result (`stringifyToolResult(result)`), and
`localShell`'s for `JSON.stringify(localResult, null, 2)`; `completion`
receives the round index, the working messages and the `tools` argument
(`none` when tool choice is disabled). -/
structure Env where
  jsonParse : String → Option JsValue
  stringifyArgs : JsValue → String
  stringifyEvent : JsValue → Option String
  completion : Nat → List ChatMessage → Option (List OpenAiTool) → Except String ChatResponse
  mcpListTools : Except String (List (Option McpTool))
  mcpCallTool : String → JsValue → Except String String
  localShell : JsValue → Except String String
  nativeStream : List ChatMessage → Except String StreamOutcome

/-- `LOCAL_SHELL_TOOL_NAME` (local-shell-tool.js line 7). -/
def LOCAL_SHELL_TOOL_NAME : String := "run_local_shell_command"

/-- The JSON schema of the local shell tool's parameters
(local-shell-tool.js lines 84–111). -/
def localShellParametersSchema : JsValue :=
  .obj
    [("type", .str "object"),
     ("additionalProperties", .bool false),
     ("properties", .obj
        [("command", .obj
            [("type", .str "string"),
             ("description", .str "Shell command text to execute.")]),
         ("cwd", .obj
            [("type", .str "string"),
             ("description", .str
                "Optional working directory. Relative paths resolve from current workspace root.")]),
         ("timeout_seconds", .obj
            [("type", .str "integer"),
             ("minimum", .num 1),
             ("maximum", .num 900),
             ("description", .str "Optional timeout in seconds.")]),
         ("max_output_chars", .obj
            [("type", .str "integer"),
             ("minimum", .num 256),
             ("maximum", .num 200000),
             ("description", .str
                "Optional max characters kept for stdout and stderr.")])]),
     ("required", .arr [.str "command"])]

/-- Embeds `getLocalShellOpenAiTool` (local-shell-tool.js lines 76–114). -/
def getLocalShellOpenAiTool : OpenAiTool :=
  { type := "function"
    function :=
      { name := LOCAL_SHELL_TOOL_NAME
        description :=
          "Run a shell command in the current extension host environment. " ++
          "When VS Code is attached to a container, this runs inside that container."
        parameters := localShellParametersSchema } }

/-- The outcome of the tool-set assembly phase of `runChatWithOptionalMcp`
(lines 166–217): the exposed tool list, the `mcpEnabled` flag after the
phase, whether an `McpHttpClient` instance was constructed (it is,
exactly when `config.mcpEnabled` was set, even if listing later fails),
and the trace so far. -/
structure SetupOut where
  openAiTools : List OpenAiTool
  mcpEnabledAfter : Bool
  mcpClientPresent : Bool
  trace : List TraceEvent

/-- Embeds the tool-set assembly phase (chat-runner.js lines 166–217),
including the final rescue check on line 212 (which is unreachable with
a true `mcpEnabled`, but is translated as written). -/
def setupTools (E : Env) (config : Config) : SetupOut :=
  let localTools : List OpenAiTool :=
    if config.localShellEnabled then [getLocalShellOpenAiTool] else []
  let mcpWord := if config.mcpEnabled then "enabled" else "disabled"
  let shellWord := if config.localShellEnabled then "enabled" else "disabled"
  let tr : List TraceEvent :=
    [{ type := "start"
       summary := "Prompt execution started (mcp=" ++ mcpWord ++ ", local_shell=" ++ shellWord ++ ")"
       details := "" }]
  let afterBranches : SetupOut :=
    if config.mcpEnabled then
      match E.mcpListTools with
      | .ok mcpTools =>
          let mcpOpenAiTools := asOpenAiTools mcpTools MCP_EXECUTION_TOOL_NAMES
          let openAiTools := localTools ++ mcpOpenAiTools
          if openAiTools.length = 0 then
            { openAiTools := openAiTools
              mcpEnabledAfter := false
              mcpClientPresent := true
              trace := tr ++
                [{ type := "mcp"
                   summary := "MCP connected but no tools were returned."
                   details := "" }] }
          else if mcpOpenAiTools.length = 0 && config.localShellEnabled then
            { openAiTools := openAiTools
              mcpEnabledAfter := true
              mcpClientPresent := true
              trace := tr ++
                [{ type := "mcp"
                   summary := "MCP connected; execution tools excluded; local shell tool active."
                   details := "" }] }
          else
            let n := openAiTools.length
            let names := String.intercalate ", "
              (openAiTools.map (fun tool => tool.function.name))
            { openAiTools := openAiTools
              mcpEnabledAfter := true
              mcpClientPresent := true
              trace := tr ++
                [{ type := "mcp"
                   summary := "Tools loaded (" ++ toString n ++ ")."
                   details := names }] }
      | .error msg =>
          { openAiTools := []
            mcpEnabledAfter := false
            mcpClientPresent := true
            trace := tr ++
              [{ type := "mcp"
                 summary := "MCP disabled for this turn."
                 details := msg }] }
    else if config.localShellEnabled then
      { openAiTools := localTools
        mcpEnabledAfter := false
        mcpClientPresent := false
        trace := tr ++
          [{ type := "tool"
             summary := "MCP disabled; local shell tool is active."
             details := "" }] }
    else
      { openAiTools := []
        mcpEnabledAfter := false
        mcpClientPresent := false
        trace := tr }
  if afterBranches.mcpEnabledAfter && config.localShellEnabled &&
      afterBranches.openAiTools.length = 0 then
    { afterBranches with openAiTools := localTools }
  else
    afterBranches

/-- The fixed advisory text returned when the round budget is exhausted
(chat-runner.js lines 334–335). -/
def advisoryText : String :=
  "Reached tool-call round limit before final response. Increase joshgpt.mcp.maxToolRounds if needed."

/-- The runtime error raised by `toolCall.id` on a falsy `toolCall`
(chat-runner.js line 321); it is not caught by the per-call handlers and
rejects the whole turn. -/
def typeErrorNullId : String :=
  "TypeError: Cannot read properties of null (reading 'id')"

/-- `maxRounds` (chat-runner.js lines 219–221): the configured limit
clamped to a minimum of 1 when it is a finite number, else 4. -/
def maxRoundsOf (config : Config) : Nat :=
  match config.mcpMaxToolRounds with
  | some n => (max 1 n).toNat
  | none => 4

/-- Outcome of executing one round's tool calls: `none` error means all
calls were processed (each appending one tool message); `some e` means a
nullish tool-call entry raised `e` uncaught after its execution
attempt. -/
structure CallsOut where
  err : Option String
  messages : List ChatMessage
  trace : List TraceEvent

/-- One iteration of the per-round `for (const toolCall of
response.toolCalls)` body (chat-runner.js lines 268–325): parse the
arguments, route to the local shell or the MCP gateway, convert
execution failures into error-text results, and produce the tool message
to append — or, for a nullish entry only, the uncaught `TypeError`
raised by `toolCall.id` — together with the trace events recorded along
the way.  On a non-nullish primitive entry every property read yields
`undefined`, so the appended message has an undefined (`none`)
`tool_call_id` and an empty name, and the loop continues. -/
def execToolCall (E : Env) (mcpClientPresent : Bool) (entry : ToolCallEntry) :
    Except String ChatMessage × List TraceEvent :=
  let toolName :=
    match entry with
    | .call tc => tc.fnName
    | _ => ""
  let rawArgs :=
    match entry with
    | .call tc => tc.fnRawArgs
    | _ => "{}"
  let args := parseToolArguments E.jsonParse (.str rawArgs)
  let shownName := if toolName = "" then "<unknown>" else toolName
  let callingTrace : TraceEvent :=
    { type := "tool"
      summary := "Calling tool: " ++ shownName
      details := E.stringifyArgs args }
  let step : String × List TraceEvent :=
    if toolName = LOCAL_SHELL_TOOL_NAME then
      match E.localShell args with
      | .ok resText =>
          (resText,
           [{ type := "tool"
              summary := "Local shell result: " ++ toolName
              details := resText.take 1200 }])
      | .error msg =>
          ("Local shell tool failed: " ++ msg,
           [{ type := "tool-error"
              summary := "Local shell failed: " ++ toolName
              details := msg }])
    else
      if !mcpClientPresent then
        let msg := "MCP client unavailable for non-local tool."
        ("MCP tool call failed: " ++ msg,
         [{ type := "tool-error"
            summary := "Tool failed: " ++ shownName
            details := msg }])
      else
        match E.mcpCallTool toolName args with
        | .ok resText =>
            (resText,
             [{ type := "tool"
                summary := "Tool result: " ++ shownName
                details := resText.take 1200 }])
        | .error msg =>
            ("MCP tool call failed: " ++ msg,
             [{ type := "tool-error"
                summary := "Tool failed: " ++ shownName
                details := msg }])
  match entry with
  | .nullish => (.error typeErrorNullId, callingTrace :: step.2)
  | .prim _ =>
      (.ok
        { role := "tool"
          content := step.1
          tool_call_id := none
          name := some toolName },
       callingTrace :: step.2)
  | .call tc =>
      (.ok
        { role := "tool"
          content := step.1
          tool_call_id := some tc.id
          name := some toolName },
       callingTrace :: step.2)

/-- The per-round tool-call loop (chat-runner.js lines 268–325): run the
calls in emission order, appending one tool message per non-nullish
entry; a nullish entry stops the loop with its uncaught `TypeError`
(after its execution attempt has already been traced). -/
def processCalls (E : Env) (mcpClientPresent : Bool) :
    List ToolCallEntry → List ChatMessage → List TraceEvent → CallsOut
  | [], w, tr => { err := none, messages := w, trace := tr }
  | entry :: rest, w, tr =>
      match execToolCall E mcpClientPresent entry with
      | (.error e, ts) => { err := some e, messages := w, trace := tr ++ ts }
      | (.ok msg, ts) =>
          processCalls E mcpClientPresent rest (w ++ [msg]) (tr ++ ts)

/-- The observable outcome of a turn: the settled result (resolved value
or rejection message), the number of completion requests performed, and
the final working message list. -/
structure LoopOut where
  result : Except String RunResult
  requests : Nat
  finalMessages : List ChatMessage

/-- Embeds the round loop (chat-runner.js lines 223–339), structurally
recursing on the remaining round budget (`fuel`); `round` is the 0-based
index of the current round.  Exhausted fuel is the fall-through past the
`for` loop: the fixed advisory result. -/
def runLoop (E : Env) (mcpClientPresent : Bool)
    (toolsArg : Option (List OpenAiTool)) (maxRounds : Nat) :
    Nat → Nat → List ChatMessage → Bool → List TraceEvent → LoopOut
  | 0, _, w, _, tr =>
      { result := .ok
          { text := advisoryText
            usedTools := true
            rounds := maxRounds
            trace := tr ++
              [{ type := "limit"
                 summary := "Stopped after reaching max tool-call rounds."
                 details := "max_rounds=" ++ toString maxRounds }] }
        requests := 0
        finalMessages := w }
  | fuel + 1, round, w, usedTools, tr =>
      let mc := w.length
      let tr := tr ++
        [{ type := "round"
           summary := "Round " ++ toString (round + 1) ++ ": requesting model completion."
           details := "message_count=" ++ toString mc }]
      match E.completion round w toolsArg with
      | .error e => { result := .error e, requests := 1, finalMessages := w }
      | .ok response =>
          let toolCallCount := countToolCalls response
          let tr := tr ++
            [{ type := "round"
               summary := "Round " ++ toString (round + 1) ++ ": model responded (tool_calls=" ++ toString toolCallCount ++ ")."
               details := "" }]
          if toolCallCount = 0 then
            { result := .ok
                { text := response.text
                  usedTools := usedTools
                  rounds := round + 1
                  trace := tr ++
                    [{ type := "final"
                       summary := "Model returned final response without additional tool calls."
                       details := "" }] }
              requests := 1
              finalMessages := w }
          else
            let assistantMessage : ChatMessage :=
              { role := "assistant"
                content := response.messageContent.getD ""
                tool_calls := some response.toolCalls }
            let w := w ++ [assistantMessage]
            let tr := tr ++
              [{ type := "tool"
                 summary := "Round " ++ toString (round + 1) ++ ": executing " ++ toString toolCallCount ++ " tool call(s)."
                 details := "" }]
            let callsOut := processCalls E mcpClientPresent response.toolCalls w tr
            match callsOut.err with
            | some e =>
                { result := .error e
                  requests := 1
                  finalMessages := callsOut.messages }
            | none =>
                let next := runLoop E mcpClientPresent toolsArg maxRounds fuel
                  (round + 1) callsOut.messages true callsOut.trace
                { next with requests := next.requests + 1 }

/-- Embeds `summarizeEventData` (chat-runner.js lines 75–87); the
`JSON.stringify` attempt is the `stringifyEvent` oracle (`none` =
throws, falling back to the `String(data)` coercion). -/
def summarizeEventData (E : Env) : JsValue → String
  | .null => ""
  | .undef => ""
  | .str s => s.take 600
  | d =>
      match E.stringifyEvent d with
      | some s => s.take 1200
      | none => (jsToString d).take 600

/-- The trace event recorded by the `onEvent` callback of
`runNativeStreamingMode` (chat-runner.js lines 107–120). -/
def traceOfStreamEvent (E : Env) (ev : StreamEvent) : TraceEvent :=
  let name := if ev.event = "" then "event" else ev.event
  let lowered := jsToLower name
  let delta := ev.deltaText
  let details := if delta ≠ "" then delta else summarizeEventData E ev.data
  if jsStartsWith lowered "reasoning." then
    { type := "reasoning", summary := name, details := details }
  else if lowered = "done" || jsEndsWith lowered ".done" || jsEndsWith lowered ".completed" then
    { type := "stream-end", summary := name, details := details }
  else
    { type := "stream", summary := name, details := details }

/-- Embeds `runNativeStreamingMode` (chat-runner.js lines 89–143).
The streamed events are traced in arrival order (the callback runs
synchronously per event, before the `final` entry). -/
def runNativeStreamingMode (E : Env) (config : Config)
    (messages : List ChatMessage) (tr0 : List TraceEvent) :
    Except String RunResult :=
  let tr := tr0 ++
    [{ type := "start"
       summary := "Prompt execution started (mode=lmstudio-native-stream)."
       details := "" }]
  let tr :=
    if config.mcpEnabled then
      tr ++
        [{ type := "mcp"
           summary := "MCP tool-calling is currently bypassed in lmstudio-native-stream mode."
           details := "" }]
    else tr
  match E.nativeStream messages with
  | .error e => .error e
  | .ok streamResult =>
      let tr := tr ++ streamResult.events.map (traceOfStreamEvent E)
      let n := streamResult.events.length
      let tr := tr ++
        [{ type := "final"
           summary := "Native streaming response completed."
           details := "events=" ++ toString n }]
      .ok
        { text :=
            if streamResult.text = "" then
              "Model returned no assistant text. Check trace for stream events."
            else streamResult.text
          usedTools := false
          rounds := 1
          trace := tr }

/-- Embeds `runChatWithOptionalMcp` (chat-runner.js lines 145–340).
In native streaming mode no chat-completion request is made and the
working conversation is untouched.  In standard mode the loop starts
from a copy of the caller's message list (`[...messages]`, line 216), so
the caller's own list is never written. -/
def runChatWithOptionalMcp (E : Env) (config : Config)
    (messages : List ChatMessage) : LoopOut :=
  if config.chatEndpointMode = "lmstudio-native-stream" then
    { result := runNativeStreamingMode E config messages []
      requests := 0
      finalMessages := messages }
  else
    let setup := setupTools E config
    let workingMessages := messages
    let toolChoiceEnabled := setup.openAiTools.length > 0
    let toolsArg := if toolChoiceEnabled then some setup.openAiTools else none
    let maxRounds := maxRoundsOf config
    runLoop E setup.mcpClientPresent toolsArg maxRounds maxRounds 0
      workingMessages false setup.trace

/-! ### Helper lemmas about the loop -/

/-- Characterization of `ToolCallEntry.isCall`. -/
theorem ToolCallEntry.isCall_iff (e : ToolCallEntry) :
    e.isCall = true ↔ ∃ tc, e = .call tc := by
  cases e <;> simp [ToolCallEntry.isCall]

/-- An object tool call always yields an appended tool message carrying
the call's id and (possibly empty) name. -/
theorem execToolCall_call_shape (E : Env) (m : Bool) (tc : ToolCall) :
    ∃ s ts, execToolCall E m (.call tc) =
      (.ok { role := "tool", content := s, tool_call_id := some tc.id,
             name := some tc.fnName }, ts) :=
  ⟨_, _, rfl⟩

/-- A non-nullish primitive entry yields an appended tool message with
an undefined call id and an empty name — the loop continues. -/
theorem execToolCall_prim_shape (E : Env) (m : Bool) (v : JsValue) :
    ∃ s ts, execToolCall E m (.prim v) =
      (.ok { role := "tool", content := s, tool_call_id := none,
             name := some "" }, ts) :=
  ⟨_, _, rfl⟩

/-- A nullish tool-call entry always raises the uncaught `TypeError`. -/
theorem execToolCall_nullish_err (E : Env) (m : Bool) :
    ∃ ts, execToolCall E m .nullish = (.error typeErrorNullId, ts) :=
  ⟨_, rfl⟩

/-- The tool messages a round's call list appends to the conversation,
in order; the sequence stops at the first nullish entry. -/
def toolMessagesOf (E : Env) (m : Bool) : List ToolCallEntry → List ChatMessage
  | [] => []
  | entry :: rest =>
      match execToolCall E m entry with
      | (.error _, _) => []
      | (.ok msg, _) => msg :: toolMessagesOf E m rest

/-- `processCalls` only ever appends to the working conversation, and
what it appends is `toolMessagesOf`. -/
theorem processCalls_messages_eq (E : Env) (m : Bool) :
    ∀ (entries : List ToolCallEntry) (w : List ChatMessage)
      (tr : List TraceEvent),
      (processCalls E m entries w tr).messages = w ++ toolMessagesOf E m entries := by
  intro entries
  induction entries with
  | nil => intro w tr; simp [processCalls, toolMessagesOf]
  | cons entry rest ih =>
      intro w tr
      cases hstep : execToolCall E m entry with
      | mk res ts =>
          cases res with
          | error e => simp [processCalls, toolMessagesOf, hstep]
          | ok msg =>
              simp only [processCalls, toolMessagesOf, hstep]
              rw [ih]
              simp

/-- Every message appended by a round's tool-call loop is a tool
message. -/
theorem toolMessagesOf_roles (E : Env) (m : Bool) :
    ∀ (entries : List ToolCallEntry) (x : ChatMessage),
      x ∈ toolMessagesOf E m entries → x.role = "tool" := by
  intro entries
  induction entries with
  | nil => intro x hx; simp [toolMessagesOf] at hx
  | cons entry rest ih =>
      intro x hx
      cases entry with
      | nullish =>
          obtain ⟨ts, hnone⟩ := execToolCall_nullish_err E m
          simp [toolMessagesOf, hnone] at hx
      | prim v =>
          obtain ⟨s, ts, hstep⟩ := execToolCall_prim_shape E m v
          simp only [toolMessagesOf, hstep] at hx
          rcases List.mem_cons.mp hx with h | h
          · rw [h]
          · exact ih x h
      | call tc =>
          obtain ⟨s, ts, hstep⟩ := execToolCall_call_shape E m tc
          simp only [toolMessagesOf, hstep] at hx
          rcases List.mem_cons.mp hx with h | h
          · rw [h]
          · exact ih x h

/-- On an all-object call list, one tool message is appended per
requested call. -/
theorem toolMessagesOf_length (E : Env) (m : Bool) :
    ∀ (entries : List ToolCallEntry),
      (∀ e ∈ entries, e.isCall = true) →
      (toolMessagesOf E m entries).length = entries.length := by
  intro entries
  induction entries with
  | nil => intro _; rfl
  | cons entry rest ih =>
      intro h
      have hsome : entry.isCall = true := h entry (List.mem_cons_self _ _)
      obtain ⟨tc, rfl⟩ := (ToolCallEntry.isCall_iff entry).mp hsome
      obtain ⟨s, ts, hstep⟩ := execToolCall_call_shape E m tc
      simp only [toolMessagesOf, hstep, List.length_cons]
      rw [ih (fun e he => h e (List.mem_cons_of_mem _ he))]

/-- On an all-object call list, `processCalls` never raises. -/
theorem processCalls_err_none (E : Env) (m : Bool)
    (entries : List ToolCallEntry)
    (h : ∀ e ∈ entries, e.isCall = true) :
    ∀ (w : List ChatMessage) (tr : List TraceEvent),
      (processCalls E m entries w tr).err = none := by
  induction entries with
  | nil => intro w tr; rfl
  | cons entry rest ih =>
      intro w tr
      have hsome : entry.isCall = true := h entry (List.mem_cons_self _ _)
      obtain ⟨tc, rfl⟩ := (ToolCallEntry.isCall_iff entry).mp hsome
      obtain ⟨s, ts, hstep⟩ := execToolCall_call_shape E m tc
      simp only [processCalls, hstep]
      exact ih (fun e he => h e (List.mem_cons_of_mem _ he)) _ _

/-- The loop performs at most `fuel` completion requests. -/
theorem runLoop_requests_le (E : Env) (m : Bool) (ta : Option (List OpenAiTool))
    (mr : Nat) :
    ∀ (fuel round : Nat) (w : List ChatMessage) (u : Bool) (tr : List TraceEvent),
      (runLoop E m ta mr fuel round w u tr).requests ≤ fuel := by
  intro fuel
  induction fuel with
  | zero => intro round w u tr; simp [runLoop]
  | succ n ih =>
      intro round w u tr
      simp only [runLoop]
      split
      · show (1 : Nat) ≤ n + 1
        omega
      · split
        · show (1 : Nat) ≤ n + 1
          omega
        · split
          · show (1 : Nat) ≤ n + 1
            omega
          · show (runLoop E m ta mr n _ _ _ _).requests + 1 ≤ n + 1
            exact Nat.succ_le_succ (ih _ _ _ _)

/-- If every completion response requests at least one object tool
call, the loop runs the budget down and returns the advisory result. -/
theorem runLoop_exhaustion (E : Env) (m : Bool) (ta : Option (List OpenAiTool))
    (mr : Nat)
    (H : ∀ (r : Nat) (w : List ChatMessage), ∃ resp,
        E.completion r w ta = .ok resp ∧ countToolCalls resp ≠ 0 ∧
        ∀ e ∈ resp.toolCalls, e.isCall = true) :
    ∀ (fuel round : Nat) (w : List ChatMessage) (u : Bool) (tr : List TraceEvent),
      ∃ tr', (runLoop E m ta mr fuel round w u tr).result =
        .ok { text := advisoryText, usedTools := true, rounds := mr, trace := tr' } := by
  intro fuel
  induction fuel with
  | zero => intro round w u tr; exact ⟨_, rfl⟩
  | succ n ih =>
      intro round w u tr
      obtain ⟨resp, hc, h0, hwf⟩ := H round w
      simp only [runLoop, hc, if_neg h0,
        processCalls_err_none E m resp.toolCalls hwf]
      exact ih _ _ _ _

/-- A round whose completion response carries no tool calls is terminal:
the loop returns that response's text with one request consumed and the
conversation untouched. -/
theorem runLoop_terminal_on_empty (E : Env) (m : Bool)
    (ta : Option (List OpenAiTool)) (mr : Nat)
    (fuel round : Nat) (w : List ChatMessage) (u : Bool) (tr : List TraceEvent)
    (resp : ChatResponse) (hc : E.completion round w ta = .ok resp)
    (hz : resp.toolCalls = []) :
    ∃ tr', runLoop E m ta mr (fuel + 1) round w u tr =
      { result := .ok { text := resp.text, usedTools := u, rounds := round + 1,
                        trace := tr' }
        requests := 1
        finalMessages := w } := by
  have h0 : countToolCalls resp = 0 := by simp [countToolCalls, hz]
  simp only [runLoop, hc, h0]
  exact ⟨_, rfl⟩

/-- One round's worth of appended conversation: an assistant message
followed by its tool-result messages, one per requested call. -/
def isRoundBlock (b : List ChatMessage) : Prop :=
  ∃ a rest, b = a :: rest ∧ a.role = "assistant" ∧
    rest.length = (a.tool_calls.getD []).length ∧ ∀ x ∈ rest, x.role = "tool"

/-- Under well-formed (all-object) tool-call lists, the loop only ever
appends to the working conversation, in per-round blocks of one
assistant message plus one tool message per requested call. -/
theorem runLoop_block_structure (E : Env) (m : Bool)
    (ta : Option (List OpenAiTool)) (mr : Nat)
    (hwf : ∀ (r : Nat) (w : List ChatMessage) (resp : ChatResponse),
        E.completion r w ta = .ok resp → ∀ e ∈ resp.toolCalls, e.isCall = true) :
    ∀ (fuel round : Nat) (w : List ChatMessage) (u : Bool) (tr : List TraceEvent),
      ∃ blocks : List (List ChatMessage),
        (runLoop E m ta mr fuel round w u tr).finalMessages = w ++ blocks.flatten ∧
        ∀ b ∈ blocks, isRoundBlock b := by
  intro fuel
  induction fuel with
  | zero =>
      intro round w u tr
      exact ⟨[], by simp [runLoop], by simp⟩
  | succ n ih =>
      intro round w u tr
      cases hc : E.completion round w ta with
      | error e =>
          refine ⟨[], ?_, by simp⟩
          simp [runLoop, hc]
      | ok resp =>
          by_cases h0 : countToolCalls resp = 0
          · refine ⟨[], ?_, by simp⟩
            simp [runLoop, hc, h0]
          · have herr := processCalls_err_none E m resp.toolCalls (hwf round w resp hc)
            obtain ⟨blocks', hfin, hblocks⟩ := ih (round + 1) _ true _
            refine ⟨({ role := "assistant"
                       content := resp.messageContent.getD ""
                       tool_calls := some resp.toolCalls
                       tool_call_id := none
                       name := none } :: toolMessagesOf E m resp.toolCalls) :: blocks',
                    ?_, ?_⟩
            · simp only [runLoop, hc, if_neg h0, herr]
              rw [processCalls_messages_eq E m, hfin]
              simp
            · intro b hb
              rcases List.mem_cons.mp hb with h | h
              · refine ⟨_, _, h, rfl, ?_, toolMessagesOf_roles E m resp.toolCalls⟩
                rw [toolMessagesOf_length E m resp.toolCalls (hwf round w resp hc)]
                rfl
              · exact hblocks b h

/-- `maxRounds` is clamped to at least 1. -/
theorem one_le_maxRoundsOf (config : Config) : 1 ≤ maxRoundsOf config := by
  cases h : config.mcpMaxToolRounds with
  | none => simp [maxRoundsOf, h]
  | some n =>
      simp only [maxRoundsOf, h]
      omega

/-- In a non-native mode, the turn is the round loop started from the
assembled tool set and a copy of the caller's messages. -/
theorem runChat_eq_runLoop (E : Env) (config : Config)
    (messages : List ChatMessage)
    (hmode : config.chatEndpointMode ≠ "lmstudio-native-stream") :
    runChatWithOptionalMcp E config messages =
      runLoop E (setupTools E config).mcpClientPresent
        (if (setupTools E config).openAiTools.length > 0 then
          some (setupTools E config).openAiTools
         else none)
        (maxRoundsOf config) (maxRoundsOf config) 0 messages false
        (setupTools E config).trace := by
  simp only [runChatWithOptionalMcp, if_neg hmode]

/-- In native streaming mode the turn is the dedicated streaming path,
with no completion requests and the caller's messages untouched. -/
theorem runChat_eq_native (E : Env) (config : Config)
    (messages : List ChatMessage)
    (hmode : config.chatEndpointMode = "lmstudio-native-stream") :
    runChatWithOptionalMcp E config messages =
      { result := runNativeStreamingMode E config messages []
        requests := 0
        finalMessages := messages } := by
  simp only [runChatWithOptionalMcp, if_pos hmode]

/-! ### Theorems -/

/-- C7: output truncation is a no-op on text already within the cap —
for every string of length at most `maxChars`, `truncateText` returns
the same text with `truncated = false`; every longer string yields a
text ending in the truncation marker with `truncated = true`. -/
theorem truncateText_noop_within_cap (s : String) (maxChars : Nat) :
    (s.length ≤ maxChars → truncateText s maxChars = (s, false)) ∧
    (maxChars < s.length →
      (truncateText s maxChars).2 = true ∧
      ∃ head, (truncateText s maxChars).1 = head ++ "\n...[truncated]") := by
  constructor
  · intro h
    simp [truncateText, h]
  · intro h
    have h' : ¬ s.length ≤ maxChars := Nat.not_le.mpr h
    refine ⟨by simp [truncateText, h'], ?_⟩
    exact ⟨s.take (maxChars - ("\n...[truncated]" : String).length),
      by simp [truncateText, h']⟩

/-- Witness for C7 at concrete inputs. -/
theorem truncateText_noop_within_cap_witness :
    truncateText "abc" 5 = ("abc", false) ∧
    ((truncateText "abcdefgh" 3).2 = true ∧
      ∃ head, (truncateText "abcdefgh" 3).1 = head ++ "\n...[truncated]") :=
  ⟨(truncateText_noop_within_cap "abc" 5).1 (by decide),
   (truncateText_noop_within_cap "abcdefgh" 3).2 (by decide)⟩

/-- C4: argument parsing is total and never throws — a non-string
payload, an empty/whitespace payload, a payload `JSON.parse` rejects,
and a payload parsing to anything that is not a (truthy) object all
yield the empty argument object. -/
theorem parseToolArguments_defaults_to_empty (jp : String → Option JsValue) :
    (∀ v : JsValue, v.isString = false → parseToolArguments jp v = emptyObj) ∧
    (∀ s : String, jsTrim s = "" → parseToolArguments jp (.str s) = emptyObj) ∧
    (∀ s : String, jp s = none → parseToolArguments jp (.str s) = emptyObj) ∧
    (∀ (s : String) (v : JsValue), jp s = some v →
      (v.isTruthy && v.typeofIsObject) = false →
      parseToolArguments jp (.str s) = emptyObj) := by
  refine ⟨?_, ?_, ?_, ?_⟩
  · intro v hv
    cases v <;> simp_all [parseToolArguments, JsValue.isString]
  · intro s hs
    simp [parseToolArguments, hs]
  · intro s hjp
    by_cases hs : jsTrim s = ""
    · simp [parseToolArguments, hs]
    · simp [parseToolArguments, hs, hjp]
  · intro s v hjp hv
    by_cases hs : jsTrim s = ""
    · simp [parseToolArguments, hs]
    · simp [parseToolArguments, hs, hjp, hv]

/-- Witness for C4 at concrete inputs, with a concrete `JSON.parse`
oracle accepting exactly the payload `"0"` (as the number `0`, which is
falsy and not an object). -/
theorem parseToolArguments_defaults_to_empty_witness :
    parseToolArguments (fun s => if s = "0" then some (.num 0) else none)
        (.num 3) = emptyObj ∧
    parseToolArguments (fun s => if s = "0" then some (.num 0) else none)
        (.str "   ") = emptyObj ∧
    parseToolArguments (fun s => if s = "0" then some (.num 0) else none)
        (.str "nope") = emptyObj ∧
    parseToolArguments (fun s => if s = "0" then some (.num 0) else none)
        (.str "0") = emptyObj := by
  have h := parseToolArguments_defaults_to_empty
    (fun s => if s = "0" then some (.num 0) else none)
  exact ⟨h.1 (.num 3) rfl, h.2.1 "   " rfl, h.2.2.1 "nope" rfl,
    h.2.2.2 "0" (.num 0) rfl rfl⟩

/-- C5: the adapted schema list never exposes the two execution-proxy
tool names — every tool surviving `asOpenAiTools` with the exclusion set
applied is named neither `run_host_command` nor `run_container_command`. -/
theorem asOpenAiTools_never_exposes_execution_tools
    (mcpTools : List (Option McpTool)) (t : OpenAiTool)
    (ht : t ∈ asOpenAiTools mcpTools MCP_EXECUTION_TOOL_NAMES) :
    t.function.name ≠ "run_host_command" ∧
    t.function.name ≠ "run_container_command" := by
  simp only [asOpenAiTools, List.mem_map, List.mem_filter] at ht
  obtain ⟨tool, ⟨⟨_, _⟩, hexcl⟩, rfl⟩ := ht
  have hcon : MCP_EXECUTION_TOOL_NAMES.contains (jsToString tool.name) = false := by
    simpa using hexcl
  constructor
  · show jsToString tool.name ≠ "run_host_command"
    intro hname
    rw [hname] at hcon
    exact absurd hcon (by decide)
  · show jsToString tool.name ≠ "run_container_command"
    intro hname
    rw [hname] at hcon
    exact absurd hcon (by decide)

/-- The scenario listing of C5: a remote listing carrying
`run_host_command` and `list_files`. -/
def c5Listing : List (Option McpTool) :=
  [some { name := .str "run_host_command"
          description := .str "runs on host"
          inputSchema := .obj [("type", .str "object")] },
   some { name := .str "list_files"
          description := .str "lists files"
          inputSchema := .obj [("type", .str "object")] }]

/-- The adapted descriptor of `list_files` from `c5Listing`. -/
def c5AdaptedListFiles : OpenAiTool :=
  { type := "function"
    function :=
      { name := "list_files"
        description := "lists files"
        parameters := .obj [("type", .str "object")] } }

/-- Witness for C5: on the scenario listing, the adapted list is exactly
the `list_files` entry, and it is not an execution-proxy name. -/
theorem asOpenAiTools_never_exposes_execution_tools_witness :
    c5AdaptedListFiles ∈ asOpenAiTools c5Listing MCP_EXECUTION_TOOL_NAMES ∧
    c5AdaptedListFiles.function.name ≠ "run_host_command" ∧
    c5AdaptedListFiles.function.name ≠ "run_container_command" :=
  have heq : asOpenAiTools c5Listing MCP_EXECUTION_TOOL_NAMES =
      [c5AdaptedListFiles] := rfl
  have hmem : c5AdaptedListFiles ∈ asOpenAiTools c5Listing MCP_EXECUTION_TOOL_NAMES := by
    rw [heq]; exact List.mem_singleton.mpr rfl
  ⟨hmem, asOpenAiTools_never_exposes_execution_tools c5Listing c5AdaptedListFiles hmem⟩

/-- Spec-side formulation of "the last well-formed JSON payload among
the streamed data lines": the last data-line payload the JSON parser
accepts. -/
def lastWellFormedData (jsonParse : String → Option JsValue)
    (ls : List String) : Option String :=
  ls.reverse.find? (fun c => (jsonParse c).isSome)

/-- The reverse scan of `_parseMcpBody` computes exactly the last
well-formed data payload (given that the parser rejects the empty
string, as `JSON.parse` does). -/
theorem lastJsonPayload_eq_lastWellFormed (jp : String → Option JsValue)
    (hj : jp "" = none) (ls : List String) :
    lastJsonPayload jp ls = (lastWellFormedData jp ls).bind jp := by
  induction ls with
  | nil => rfl
  | cons c rest ih =>
      have hstep : lastJsonPayload jp (c :: rest) =
          (match lastJsonPayload jp rest with
           | some v => some v
           | none => if c = "" then none else jp c) := rfl
      have happ : lastWellFormedData jp (c :: rest) =
          (lastWellFormedData jp rest).or
            (List.find? (fun x => (jp x).isSome) [c]) := by
        unfold lastWellFormedData
        rw [List.reverse_cons, List.find?_append]
      cases hrec : lastJsonPayload jp rest with
      | some v =>
          rw [hrec] at ih
          cases hf : lastWellFormedData jp rest with
          | none =>
              rw [hf] at ih
              exact absurd ih (by simp)
          | some l =>
              rw [hf] at ih
              have hjl : jp l = some v := ih.symm
              rw [hstep, hrec, happ, hf]
              exact hjl.symm
      | none =>
          rw [hrec] at ih
          have hfind : lastWellFormedData jp rest = none := by
            cases hf : lastWellFormedData jp rest with
            | none => rfl
            | some l =>
                rw [hf] at ih
                have hno : (none : Option JsValue) = jp l := ih
                have hpl : (jp l).isSome = true := by
                  simpa using List.find?_some hf
                rw [← hno] at hpl
                simp at hpl
          rw [hstep, hrec, happ, hfind]
          by_cases hc : c = ""
          · subst hc
            simp [List.find?, hj, Option.or]
          · cases hjc : jp c with
            | none => simp [List.find?, hjc, Option.or, hc]
            | some v => simp [List.find?, hjc, Option.or, hc]

/-- C8: the Protocol Client's body parser handles both plain-JSON and
text-event-stream bodies — an empty body throws; a non-JSON-object body
with no `data:` lines throws; one whose data lines all fail to parse
throws; and otherwise it returns the last well-formed JSON payload among
the data lines.  The hypothesis `jp "" = none` records that `JSON.parse`
rejects the empty string. -/
theorem parseMcpBody_handles_both_shapes (jp : String → Option JsValue)
    (hj : jp "" = none) :
    (∀ body, jsTrim body = "" →
      parseMcpBody jp body = .error "MCP response body is empty.") ∧
    (∀ body, jsTrim body ≠ "" →
      jsStartsWith (jsTrim (jsTrim body)) "\x7b" = false →
      dataLinesOf (jsTrim (jsTrim body)) = [] →
      ∃ e, parseMcpBody jp body = .error e) ∧
    (∀ body, jsTrim body ≠ "" →
      jsStartsWith (jsTrim (jsTrim body)) "\x7b" = false →
      dataLinesOf (jsTrim (jsTrim body)) ≠ [] →
      lastWellFormedData jp (dataLinesOf (jsTrim (jsTrim body))) = none →
      parseMcpBody jp body =
        .error "Unable to parse MCP JSON payload from response.") ∧
    (∀ body l, jsTrim body ≠ "" →
      jsStartsWith (jsTrim (jsTrim body)) "\x7b" = false →
      lastWellFormedData jp (dataLinesOf (jsTrim (jsTrim body))) = some l →
      ∃ v, jp l = some v ∧ parseMcpBody jp body = .ok v) := by
  refine ⟨?_, ?_, ?_, ?_⟩
  · intro body h
    simp [parseMcpBody, h]
  · intro body h1 h2 h3
    refine ⟨"Unexpected MCP response format: " ++ (jsTrim (jsTrim body)).take 200, ?_⟩
    simp [parseMcpBody, h1, h2, h3]
  · intro body h1 h2 h3 h4
    have hlast := lastJsonPayload_eq_lastWellFormed jp hj
      (dataLinesOf (jsTrim (jsTrim body)))
    rw [h4] at hlast
    have hlast' : lastJsonPayload jp (dataLinesOf (jsTrim (jsTrim body))) = none :=
      hlast
    simp [parseMcpBody, h1, h2, h3, hlast']
  · intro body l h1 h2 h4
    have hpl : (jp l).isSome = true := by
      simpa using List.find?_some h4
    rw [Option.isSome_iff_exists] at hpl
    obtain ⟨v, hv⟩ := hpl
    refine ⟨v, hv, ?_⟩
    have hlast := lastJsonPayload_eq_lastWellFormed jp hj
      (dataLinesOf (jsTrim (jsTrim body)))
    rw [h4] at hlast
    have hlast' : lastJsonPayload jp (dataLinesOf (jsTrim (jsTrim body))) = jp l :=
      hlast
    rw [hv] at hlast'
    have h3 : dataLinesOf (jsTrim (jsTrim body)) ≠ [] := by
      intro hnil
      rw [hnil] at h4
      simp [lastWellFormedData] at h4
    simp [parseMcpBody, h1, h2, h3, hlast']

/-- Witness for C8 at a concrete streamed body, with a concrete
`JSON.parse` oracle accepting exactly `"{}"`. -/
theorem parseMcpBody_handles_both_shapes_witness :
    parseMcpBody (fun s => if s = "{}" then some emptyObj else none) "" =
      .error "MCP response body is empty." ∧
    (∃ v, (fun s => if s = "{}" then some emptyObj else none) "{}" = some v ∧
      parseMcpBody (fun s => if s = "{}" then some emptyObj else none)
        "event: message\ndata: {}\n\n" = .ok v) := by
  have h := parseMcpBody_handles_both_shapes
    (fun s => if s = "{}" then some emptyObj else none) rfl
  exact ⟨h.1 "" rfl,
    h.2.2.2 "event: message\ndata: {}\n\n" "{}" (by decide) (by decide) (by decide)⟩

/-- C2: per turn the loop performs at most `maxRounds` completion
requests (`maxRounds` = configured limit clamped to a minimum of 1,
default 4 when not finite); and if every response keeps requesting
object tool calls, the budget is exhausted and the turn returns the
fixed advisory text with `usedTools = true` and `rounds = maxRounds`. -/
theorem loop_round_budget (E : Env) (config : Config)
    (messages : List ChatMessage) :
    (runChatWithOptionalMcp E config messages).requests ≤ maxRoundsOf config ∧
    (config.chatEndpointMode ≠ "lmstudio-native-stream" →
      (∀ (r : Nat) (w : List ChatMessage) (t : Option (List OpenAiTool)), ∃ resp,
          E.completion r w t = .ok resp ∧ countToolCalls resp ≠ 0 ∧
          ∀ e ∈ resp.toolCalls, e.isCall = true) →
      ∃ tr', (runChatWithOptionalMcp E config messages).result =
        .ok { text := advisoryText, usedTools := true,
              rounds := maxRoundsOf config, trace := tr' }) := by
  constructor
  · by_cases hmode : config.chatEndpointMode = "lmstudio-native-stream"
    · rw [runChat_eq_native E config messages hmode]
      exact Nat.zero_le _
    · rw [runChat_eq_runLoop E config messages hmode]
      exact runLoop_requests_le E _ _ _ _ _ _ _ _
  · intro hmode H
    rw [runChat_eq_runLoop E config messages hmode]
    exact runLoop_exhaustion E _ _ _ (fun r w => H r w _) _ _ _ _ _

/-- The completion response used by the C2 witness: one object tool
call per round, forever. -/
def c2Resp : ChatResponse :=
  { text := "calling"
    messageContent := some "calling"
    toolCalls := [.call { id := "call_1"
                          function := some { name := some "list_files"
                                             arguments := some "{}" } }] }

/-- The oracle environment of the C2 witness. -/
def c2Env : Env :=
  { jsonParse := fun _ => none
    stringifyArgs := fun _ => "{}"
    stringifyEvent := fun _ => none
    completion := fun _ _ _ => .ok c2Resp
    mcpListTools := .error "offline"
    mcpCallTool := fun _ _ => .ok "ok"
    localShell := fun _ => .ok "ok"
    nativeStream := fun _ => .error "unused" }

/-- The configuration of the C2 witness: standard mode, a round limit
of 2. -/
def c2Config : Config :=
  { chatEndpointMode := "openai-compat"
    mcpEnabled := false
    localShellEnabled := false
    mcpMaxToolRounds := some 2 }

/-- Witness for C2 at a concrete always-tool-calling environment. -/
theorem loop_round_budget_witness :
    (runChatWithOptionalMcp c2Env c2Config []).requests ≤ maxRoundsOf c2Config ∧
    ∃ tr', (runChatWithOptionalMcp c2Env c2Config []).result =
      .ok { text := advisoryText, usedTools := true,
            rounds := maxRoundsOf c2Config, trace := tr' } :=
  ⟨(loop_round_budget c2Env c2Config []).1,
   (loop_round_budget c2Env c2Config []).2 (by decide)
     (fun r w t => ⟨c2Resp, rfl, by decide, by decide⟩)⟩

/-- C1 (amended): in standard mode a response whose tool-call list is
empty is terminal — in particular a first-round response with zero tool
calls makes the turn return that response's text after exactly one
round (one completion request), regardless of whether tools were
exposed. -/
theorem empty_toolCalls_terminal (E : Env) (config : Config)
    (messages : List ChatMessage)
    (hmode : config.chatEndpointMode ≠ "lmstudio-native-stream")
    (resp : ChatResponse)
    (hresp : ∀ t, E.completion 0 messages t = .ok resp)
    (hzero : resp.toolCalls = []) :
    ∃ tr', runChatWithOptionalMcp E config messages =
      { result := .ok { text := resp.text, usedTools := false, rounds := 1,
                        trace := tr' }
        requests := 1
        finalMessages := messages } := by
  rw [runChat_eq_runLoop E config messages hmode]
  obtain ⟨k, hk⟩ : ∃ k, maxRoundsOf config = k + 1 :=
    ⟨maxRoundsOf config - 1, by have := one_le_maxRoundsOf config; omega⟩
  rw [hk]
  exact runLoop_terminal_on_empty E _ _ _ k 0 messages false _ resp (hresp _) hzero

/-- The completion response of the C1 witness: no tool calls at all. -/
def c1OkResp : ChatResponse :=
  { text := "direct answer", messageContent := some "direct answer", toolCalls := [] }

/-- The oracle environment of the C1 witness. -/
def c1OkEnv : Env :=
  { jsonParse := fun _ => none
    stringifyArgs := fun _ => "{}"
    stringifyEvent := fun _ => none
    completion := fun _ _ _ => .ok c1OkResp
    mcpListTools := .error "offline"
    mcpCallTool := fun _ _ => .ok "ok"
    localShell := fun _ => .ok "ok"
    nativeStream := fun _ => .error "unused" }

/-- The configuration of the C1 theorems. -/
def c1Config : Config :=
  { chatEndpointMode := "openai-compat"
    mcpEnabled := false
    localShellEnabled := false
    mcpMaxToolRounds := some 4 }

/-- Witness for the amended C1 at a concrete zero-tool-call response. -/
theorem empty_toolCalls_terminal_witness :
    ∃ tr', runChatWithOptionalMcp c1OkEnv c1Config [] =
      { result := .ok { text := c1OkResp.text, usedTools := false, rounds := 1,
                        trace := tr' }
        requests := 1
        finalMessages := [] } :=
  empty_toolCalls_terminal c1OkEnv c1Config [] (by decide) c1OkResp
    (fun t => rfl) rfl

/-- A completion response of the C1 counterexample: a tool-call list
whose single entry is null. -/
def c1FalsyResp : ChatResponse :=
  { text := "hello", messageContent := some "hello", toolCalls := [.nullish] }

/-- A completion response of the C1 counterexample: a tool-call list
whose single entry is the falsy primitive `0`. -/
def c1PrimResp : ChatResponse :=
  { text := "hello", messageContent := some "hello",
    toolCalls := [.prim (.num 0)] }

/-- The oracle environment of the C1 counterexample's null case. -/
def c1FalsyEnv : Env :=
  { jsonParse := fun _ => none
    stringifyArgs := fun _ => "{}"
    stringifyEvent := fun _ => none
    completion := fun _ _ _ => .ok c1FalsyResp
    mcpListTools := .error "offline"
    mcpCallTool := fun _ _ => .error "no gateway"
    localShell := fun _ => .error "no shell"
    nativeStream := fun _ => .error "unused" }

/-- The oracle environment of the C1 counterexample's `0`-entry case:
round 0 answers with the `[0]` tool-call list, round 1 terminally. -/
def c1PrimEnv : Env :=
  { jsonParse := fun _ => none
    stringifyArgs := fun _ => "{}"
    stringifyEvent := fun _ => none
    completion := fun r _ _ => if r = 0 then .ok c1PrimResp else .ok c1OkResp
    mcpListTools := .error "offline"
    mcpCallTool := fun _ _ => .error "no gateway"
    localShell := fun _ => .error "no shell"
    nativeStream := fun _ => .error "unused" }

/-- C1 counterexample: a first-round response whose tool-call list
contains only falsy entries is NOT treated as terminal — the turn never
returns that response's text after one round.  `countToolCalls` counts
the falsy entries and the loop proceeds; a null entry then aborts the
turn with the uncaught `TypeError` from `toolCall.id`, while the falsy
primitive entry `0` yields a tool message with an undefined
`tool_call_id` and the loop continues into round 2. -/
theorem falsy_toolCalls_not_terminal_cex :
    (c1FalsyResp.toolCalls = [.nullish] ∧
     c1FalsyEnv.completion 0 [] none = .ok c1FalsyResp ∧
     (runChatWithOptionalMcp c1FalsyEnv c1Config []).result =
       .error typeErrorNullId) ∧
    (c1PrimResp.toolCalls = [.prim (.num 0)] ∧
     c1PrimEnv.completion 0 [] none = .ok c1PrimResp ∧
     (runChatWithOptionalMcp c1PrimEnv c1Config []).result.map
       (fun r => (r.text, r.usedTools, r.rounds)) =
       .ok ("direct answer", true, 2) ∧
     (runChatWithOptionalMcp c1PrimEnv c1Config []).finalMessages.map
       (fun msg => (msg.role, msg.tool_call_id)) =
       [("assistant", none), ("tool", none)]) :=
  ⟨⟨rfl, rfl, rfl⟩, ⟨rfl, rfl, rfl, rfl⟩⟩

/-- C3: a failing tool execution never aborts the turn — on an
all-object call list `processCalls` never raises; a local-shell failure
appends a tool message whose content is "Local shell tool failed:
<message>" (referencing the call's id and name) and continues with the
remaining calls; a gateway failure likewise appends "MCP tool call
failed: <message>" and continues. -/
theorem tool_failure_recovered (E : Env) (m : Bool) :
    (∀ (entries : List ToolCallEntry) (w : List ChatMessage)
        (tr : List TraceEvent),
        (∀ e ∈ entries, e.isCall = true) →
        (processCalls E m entries w tr).err = none) ∧
    (∀ (tc : ToolCall) (rest : List ToolCallEntry) (w : List ChatMessage)
        (tr : List TraceEvent) (msg : String),
        tc.fnName = LOCAL_SHELL_TOOL_NAME →
        E.localShell (parseToolArguments E.jsonParse (.str tc.fnRawArgs)) =
          .error msg →
        ∃ ts, processCalls E m (.call tc :: rest) w tr =
          processCalls E m rest
            (w ++ [{ role := "tool"
                     content := "Local shell tool failed: " ++ msg
                     tool_call_id := some tc.id
                     name := some tc.fnName }])
            (tr ++ ts)) ∧
    (∀ (tc : ToolCall) (rest : List ToolCallEntry) (w : List ChatMessage)
        (tr : List TraceEvent) (msg : String),
        tc.fnName ≠ LOCAL_SHELL_TOOL_NAME → m = true →
        E.mcpCallTool tc.fnName
            (parseToolArguments E.jsonParse (.str tc.fnRawArgs)) =
          .error msg →
        ∃ ts, processCalls E m (.call tc :: rest) w tr =
          processCalls E m rest
            (w ++ [{ role := "tool"
                     content := "MCP tool call failed: " ++ msg
                     tool_call_id := some tc.id
                     name := some tc.fnName }])
            (tr ++ ts)) := by
  refine ⟨fun entries w tr h => processCalls_err_none E m entries h w tr, ?_, ?_⟩
  · intro tc rest w tr msg hname hfail
    simp only [processCalls, execToolCall, hname, hfail, if_pos,
      eq_self_iff_true, if_true]
    exact ⟨_, rfl⟩
  · intro tc rest w tr msg hname hm hfail
    subst hm
    simp only [processCalls, execToolCall, if_neg hname, hfail,
      Bool.not_true, Bool.false_eq_true, if_false]
    exact ⟨_, rfl⟩

/-- The oracle environment of the C3 witness: every tool execution
fails. -/
def c3Env : Env :=
  { jsonParse := fun _ => none
    stringifyArgs := fun _ => "{}"
    stringifyEvent := fun _ => none
    completion := fun _ _ _ => .error "unused"
    mcpListTools := .ok []
    mcpCallTool := fun _ _ => .error "gateway down"
    localShell := fun _ => .error "spawn failed"
    nativeStream := fun _ => .error "unused" }

/-- A local-shell tool call used by the C3 witness. -/
def c3LocalCall : ToolCall :=
  { id := "call_1"
    function := some { name := some "run_local_shell_command"
                       arguments := some "{}" } }

/-- A remote tool call used by the C3 witness. -/
def c3McpCall : ToolCall :=
  { id := "call_2"
    function := some { name := some "list_files", arguments := some "{}" } }

/-- Witness for C3 at concrete failing executions. -/
theorem tool_failure_recovered_witness :
    (processCalls c3Env true [.call c3LocalCall, .call c3McpCall] [] []).err =
      none ∧
    (∃ ts, processCalls c3Env true (.call c3LocalCall :: []) [] [] =
      processCalls c3Env true []
        ([] ++ [{ role := "tool"
                  content := "Local shell tool failed: " ++ "spawn failed"
                  tool_call_id := some c3LocalCall.id
                  name := some c3LocalCall.fnName }])
        ([] ++ ts)) ∧
    (∃ ts, processCalls c3Env true (.call c3McpCall :: []) [] [] =
      processCalls c3Env true []
        ([] ++ [{ role := "tool"
                  content := "MCP tool call failed: " ++ "gateway down"
                  tool_call_id := some c3McpCall.id
                  name := some c3McpCall.fnName }])
        ([] ++ ts)) :=
  ⟨(tool_failure_recovered c3Env true).1 [.call c3LocalCall, .call c3McpCall]
      [] [] (by decide),
   (tool_failure_recovered c3Env true).2.1 c3LocalCall [] [] []
      "spawn failed" rfl rfl,
   (tool_failure_recovered c3Env true).2.2 c3McpCall [] [] []
      "gateway down" (by decide) rfl rfl⟩

/-- C6 (amended): when remote and local tooling are both enabled and
the remote listing yields zero usable descriptors, the exposed tool set
is exactly `[run_local_shell_command]` (tool-calling stays enabled);
remote tooling stays enabled and the trace records "MCP connected;
execution tools excluded; local shell tool active." rather than flagging
remote tooling disabled. -/
theorem empty_listing_local_fallback (E : Env) (config : Config)
    (hmcp : config.mcpEnabled = true) (hshell : config.localShellEnabled = true)
    (listing : List (Option McpTool))
    (hlist : E.mcpListTools = .ok listing)
    (husable : asOpenAiTools listing MCP_EXECUTION_TOOL_NAMES = []) :
    (setupTools E config).openAiTools = [getLocalShellOpenAiTool] ∧
    (setupTools E config).mcpEnabledAfter = true ∧
    { type := "mcp"
      summary := "MCP connected; execution tools excluded; local shell tool active."
      details := "" } ∈ (setupTools E config).trace := by
  simp [setupTools, hmcp, hshell, hlist, husable]

/-- The oracle environment of the C6 theorems: an empty remote
listing. -/
def c6Env : Env :=
  { jsonParse := fun _ => none
    stringifyArgs := fun _ => "{}"
    stringifyEvent := fun _ => none
    completion := fun _ _ _ => .error "unused"
    mcpListTools := .ok []
    mcpCallTool := fun _ _ => .ok "ok"
    localShell := fun _ => .ok "ok"
    nativeStream := fun _ => .error "unused" }

/-- The configuration of the C6 theorems: both tool features enabled. -/
def c6Config : Config :=
  { chatEndpointMode := "openai-compat"
    mcpEnabled := true
    localShellEnabled := true
    mcpMaxToolRounds := some 4 }

/-- Witness for the amended C6 at the concrete empty listing. -/
theorem empty_listing_local_fallback_witness :
    (setupTools c6Env c6Config).openAiTools = [getLocalShellOpenAiTool] ∧
    (setupTools c6Env c6Config).mcpEnabledAfter = true ∧
    { type := "mcp"
      summary := "MCP connected; execution tools excluded; local shell tool active."
      details := "" } ∈ (setupTools c6Env c6Config).trace :=
  empty_listing_local_fallback c6Env c6Config rfl rfl [] rfl rfl

/-- C6 counterexample: on an empty remote listing with the local tool
enabled, the turn's trace is exactly the start entry plus the
"execution tools excluded" entry — no trace event flags remote tooling
disabled (`mcpEnabled` even stays true), contradicting the claimed
"remote tooling is flagged disabled in the trace". -/
theorem empty_listing_not_flagged_disabled_cex :
    (setupTools c6Env c6Config).openAiTools = [getLocalShellOpenAiTool] ∧
    (setupTools c6Env c6Config).mcpEnabledAfter = true ∧
    (setupTools c6Env c6Config).trace =
      [{ type := "start"
         summary := "Prompt execution started (mcp=enabled, local_shell=enabled)"
         details := "" },
       { type := "mcp"
         summary := "MCP connected; execution tools excluded; local shell tool active."
         details := "" }] ∧
    ((setupTools c6Env c6Config).trace.all
      (fun e => e.summary != "MCP disabled for this turn." &&
        e.summary != "MCP connected but no tools were returned.")) = true :=
  ⟨rfl, rfl, rfl, by decide⟩

/-- C9: during a standard-mode turn with well-formed (object) tool-call
lists, the working conversation is only ever appended to — the
caller-supplied messages stay as an unchanged prefix, and the additions
are exactly one assistant message per tool-calling round, each followed
by one tool message per requested call. -/
theorem conversation_append_only (E : Env) (config : Config)
    (messages : List ChatMessage)
    (hmode : config.chatEndpointMode ≠ "lmstudio-native-stream")
    (hwf : ∀ (r : Nat) (w : List ChatMessage) (t : Option (List OpenAiTool))
        (resp : ChatResponse),
        E.completion r w t = .ok resp → ∀ e ∈ resp.toolCalls, e.isCall = true) :
    ∃ blocks : List (List ChatMessage),
      (runChatWithOptionalMcp E config messages).finalMessages =
        messages ++ blocks.flatten ∧
      ∀ b ∈ blocks, isRoundBlock b := by
  rw [runChat_eq_runLoop E config messages hmode]
  exact runLoop_block_structure E _ _ _
    (fun r w resp hc => hwf r w _ resp hc) _ _ _ _ _

/-- Responses of the C9 witness environment: one round of an object
tool call, then a terminal response. -/
def c9Env : Env :=
  { jsonParse := fun _ => none
    stringifyArgs := fun _ => "{}"
    stringifyEvent := fun _ => none
    completion := fun r _ _ =>
      if r = 0 then .ok c2Resp else .ok c1OkResp
    mcpListTools := .error "offline"
    mcpCallTool := fun _ _ => .ok "ok"
    localShell := fun _ => .ok "ok"
    nativeStream := fun _ => .error "unused" }

/-- Witness for C9 at a concrete two-round turn. -/
theorem conversation_append_only_witness :
    ∃ blocks : List (List ChatMessage),
      (runChatWithOptionalMcp c9Env c1Config
          [{ role := "user", content := "hi" }]).finalMessages =
        [{ role := "user", content := "hi" }] ++ blocks.flatten ∧
      ∀ b ∈ blocks, isRoundBlock b :=
  conversation_append_only c9Env c1Config [{ role := "user", content := "hi" }]
    (by decide)
    (fun r w t resp hc => by
      by_cases hr : r = 0
      · subst hr
        simp only [c9Env, if_pos rfl] at hc
        cases hc
        decide
      · simp only [c9Env, if_neg hr] at hc
        cases hc
        decide)

/-- On a successful stream, the native mode resolves with the stream's
text (or the fixed fallback), `usedTools = false`, `rounds = 1`, and a
trace that contains the MCP bypass note whenever MCP is enabled. -/
theorem runNativeStreamingMode_ok (E : Env) (config : Config)
    (messages : List ChatMessage) (tr0 : List TraceEvent) (s : StreamOutcome)
    (hs : E.nativeStream messages = .ok s) :
    ∃ tr, runNativeStreamingMode E config messages tr0 =
      .ok { text :=
              if s.text = "" then
                "Model returned no assistant text. Check trace for stream events."
              else s.text
            usedTools := false
            rounds := 1
            trace := tr } ∧
      (config.mcpEnabled = true →
        { type := "mcp"
          summary := "MCP tool-calling is currently bypassed in lmstudio-native-stream mode."
          details := "" } ∈ tr) := by
  simp only [runNativeStreamingMode, hs]
  refine ⟨_, rfl, ?_⟩
  intro hmcp
  simp [hmcp]

/-- C10: in native streaming mode the returned result always reports
`usedTools = false` and `rounds = 1`, for every configuration and every
stream content — even when tool features are enabled in the
configuration, in which case a bypass note is added to the trace. -/
theorem native_stream_reports_no_tools (E : Env) (config : Config)
    (messages : List ChatMessage) (r : RunResult)
    (hmode : config.chatEndpointMode = "lmstudio-native-stream")
    (hok : (runChatWithOptionalMcp E config messages).result = .ok r) :
    r.usedTools = false ∧ r.rounds = 1 ∧
    (config.mcpEnabled = true →
      { type := "mcp"
        summary := "MCP tool-calling is currently bypassed in lmstudio-native-stream mode."
        details := "" } ∈ r.trace) := by
  rw [runChat_eq_native E config messages hmode] at hok
  have hok' : runNativeStreamingMode E config messages [] = .ok r := hok
  cases hs : E.nativeStream messages with
  | error e =>
      have herr : runNativeStreamingMode E config messages [] = .error e := by
        simp [runNativeStreamingMode, hs]
      rw [herr] at hok'
      cases hok'
  | ok s =>
      obtain ⟨tr, heq, hmem⟩ := runNativeStreamingMode_ok E config messages [] s hs
      rw [heq] at hok'
      injection hok' with h
      rw [← h]
      exact ⟨rfl, rfl, hmem⟩

/-- The oracle environment of the C10 witness: a successful native
stream with no events. -/
def c10Env : Env :=
  { jsonParse := fun _ => none
    stringifyArgs := fun _ => "{}"
    stringifyEvent := fun _ => none
    completion := fun _ _ _ => .error "unused"
    mcpListTools := .ok []
    mcpCallTool := fun _ _ => .ok "ok"
    localShell := fun _ => .ok "ok"
    nativeStream := fun _ => .ok { text := "hi", events := [] } }

/-- The configuration of the C10 witness: native streaming mode with
MCP enabled. -/
def c10Config : Config :=
  { chatEndpointMode := "lmstudio-native-stream"
    mcpEnabled := true
    localShellEnabled := true
    mcpMaxToolRounds := some 4 }

/-- The result the C10 witness turn resolves with. -/
def c10Result : RunResult :=
  { text := "hi"
    usedTools := false
    rounds := 1
    trace :=
      [{ type := "start"
         summary := "Prompt execution started (mode=lmstudio-native-stream)."
         details := "" },
       { type := "mcp"
         summary := "MCP tool-calling is currently bypassed in lmstudio-native-stream mode."
         details := "" },
       { type := "final"
         summary := "Native streaming response completed."
         details := "events=0" }] }

/-- Witness for C10 at the concrete native-mode turn. -/
theorem native_stream_reports_no_tools_witness :
    c10Result.usedTools = false ∧ c10Result.rounds = 1 ∧
    ({ type := "mcp"
       summary := "MCP tool-calling is currently bypassed in lmstudio-native-stream mode."
       details := "" } : TraceEvent) ∈ c10Result.trace :=
  have h := native_stream_reports_no_tools c10Env c10Config [] c10Result rfl rfl
  ⟨h.1, h.2.1, h.2.2 rfl⟩

end JoshGpt
